import Mathlib

/-
Shallow embedding of the idverify vision / MRZ validation core
(src/idverify-sdk/android/src/main/cpp: VisionProcessor.cpp,
VisionProcessor.h, ROIMapper.h).

Modelling conventions:
* C++ `std::string` values are modelled as `List Char`.  The program only
  ever manipulates byte strings; ASCII characters behave identically in
  both worlds, and `toupper`/`isdigit` are modelled with their C-locale
  ASCII semantics (identity above the ASCII letters, which also matches
  the C locale on high bytes).
* C++ `int` arithmetic is modelled with `Nat`/`Int`; the C++ `%` operator
  (truncated remainder) is modelled by `Int.tmod`, exactly as the source
  uses it, and related to the mathematical remainder by `tmod_fix_eq_emod`.
* `cv::Mat` images are modelled in two ways, matching what each claim
  needs: a symbolic `MatDesc` that records dimensions, channel count and
  the exact sequence of OpenCV operations applied (for the preprocessing
  pipelines, whose numeric kernels live outside the program), and a
  concrete `GrayMat` pixel matrix for `detectGlare`, whose arithmetic is
  elementary.
-/

namespace IdVerify

/-- ASCII `toupper` (C locale): maps a lowercase ASCII letter to the
corresponding uppercase letter and leaves every other character alone.
This is the behaviour of `toupper(static_cast<unsigned char>(c))` in
`MRZValidator::correctOCRErrors`. -/
def toupperC (c : Char) : Char :=
  if 97 ≤ c.toNat ∧ c.toNat ≤ 122 then Char.ofNat (c.toNat - 32) else c

/-- ASCII `isdigit` (C locale), as used by `validateCheckDigit` and
`validateTCKN`. -/
def isdigitC (c : Char) : Bool :=
  decide (48 ≤ c.toNat ∧ c.toNat ≤ 57)

/-- `MRZValidator::charToValue` (VisionProcessor.cpp:757-762):
digits map to their value, uppercase letters to `10 + (c - 'A')`, and
`'<'` as well as every other character maps to 0 (the source returns 0
both for the explicit `'<'` case and in the default branch). -/
def charToValue (c : Char) : Nat :=
  if 48 ≤ c.toNat ∧ c.toNat ≤ 57 then c.toNat - 48
  else if 65 ≤ c.toNat ∧ c.toNat ≤ 90 then (c.toNat - 65) + 10
  else 0

/-- `MRZValidator::WEIGHTS` (VisionProcessor.cpp:580): the ICAO 9303
7-3-1 weight table. -/
def WEIGHTS : List Nat := [7, 3, 1]

/-- The accumulation loop of `MRZValidator::calculateChecksum`
(VisionProcessor.cpp:764-772), started at character index `i`. -/
def checksumSumFrom : Nat → List Char → Nat
  | _, [] => 0
  | i, c :: rest => charToValue c * WEIGHTS.getD (i % 3) 0 + checksumSumFrom (i + 1) rest

/-- `MRZValidator::calculateChecksum` (VisionProcessor.cpp:764-772). -/
def calculateChecksum (data : List Char) : Nat :=
  checksumSumFrom 0 data % 10

/-- `MRZValidator::validateCheckDigit` (VisionProcessor.cpp:774-779):
false unless `checkDigit` is an ASCII digit whose value equals the
computed checksum. -/
def validateCheckDigit (data : List Char) (checkDigit : Char) : Bool :=
  if isdigitC checkDigit then calculateChecksum data == checkDigit.toNat - 48 else false

/-- Character value as worded in the specification: digit value for
'0'-'9', `10 + (c - 'A')` for 'A'-'Z', and 0 for '<' or anything
unrecognized. -/
def specValue (c : Char) : Nat :=
  if '0' ≤ c ∧ c ≤ '9' then c.toNat - '0'.toNat
  else if 'A' ≤ c ∧ c ≤ 'Z' then 10 + (c.toNat - 'A'.toNat)
  else 0

/-- The cyclic 7-3-1 weight, as worded in the specification: intended to
be applied to `i % 3`. -/
def specWeight : Nat → Nat
  | 0 => 7
  | 1 => 3
  | _ => 1

theorem char_le_iff_toNat_le (a b : Char) : a ≤ b ↔ a.toNat ≤ b.toNat := by
  rfl

theorem charToValue_eq_specValue (c : Char) : charToValue c = specValue c := by
  have h0 : (('0' : Char) ≤ c ∧ c ≤ '9') ↔ (48 ≤ c.toNat ∧ c.toNat ≤ 57) :=
    and_congr (char_le_iff_toNat_le '0' c) (char_le_iff_toNat_le c '9')
  have hA : (('A' : Char) ≤ c ∧ c ≤ 'Z') ↔ (65 ≤ c.toNat ∧ c.toNat ≤ 90) :=
    and_congr (char_le_iff_toNat_le 'A' c) (char_le_iff_toNat_le c 'Z')
  have e0 : ('0' : Char).toNat = 48 := rfl
  have eA : ('A' : Char).toNat = 65 := rfl
  unfold charToValue specValue
  by_cases h : 48 ≤ c.toNat ∧ c.toNat ≤ 57
  · rw [if_pos h, if_pos (h0.mpr h), e0]
  · rw [if_neg h, if_neg (fun hh => h (h0.mp hh))]
    by_cases h2 : 65 ≤ c.toNat ∧ c.toNat ≤ 90
    · rw [if_pos h2, if_pos (hA.mpr h2), eA]
      omega
    · rw [if_neg h2, if_neg (fun hh => h2 (hA.mp hh))]

theorem weight_table_eq_specWeight (i : Nat) :
    WEIGHTS.getD (i % 3) 0 = specWeight (i % 3) := by
  have h : i % 3 = 0 ∨ i % 3 = 1 ∨ i % 3 = 2 := by omega
  rcases h with h | h | h <;> rw [h] <;> rfl

theorem checksumSumFrom_eq_sum (data : List Char) :
    ∀ k : Nat, checksumSumFrom k data
      = List.sum ((List.range data.length).map
          (fun i => charToValue (data.getD i '<') * WEIGHTS.getD ((k + i) % 3) 0)) := by
  induction data with
  | nil => intro k; simp [checksumSumFrom]
  | cons c rest ih =>
      intro k
      rw [checksumSumFrom, ih (k + 1)]
      simp only [List.length_cons, List.range_succ_eq_map, List.map_cons, List.map_map,
        List.sum_cons, List.getD_cons_zero, Nat.add_zero]
      congr 1
      apply congrArg List.sum
      apply List.map_congr_left
      intro i _
      simp only [Function.comp_apply, Nat.succ_eq_add_one, List.getD_cons_succ]
      have hk : k + 1 + i = k + (i + 1) := by omega
      rw [hk]

/-- C1: `calculateChecksum data` implements the ICAO 9303 7-3-1 weighted
sum modulo 10 over character values (digits as-is, letters as
`10 + (c - 'A')`, `'<'`/unrecognized as 0), with the weight cycling by
character index mod 3; concretely the checksum of `"123456789"` is 7, and
`validateCheckDigit "123456789" c` holds exactly for the character
`'7'`. -/
theorem calculateChecksum_spec :
    (∀ data : List Char,
      calculateChecksum data
        = (List.sum ((List.range data.length).map
            (fun i => specValue (data.getD i '<') * specWeight (i % 3)))) % 10)
    ∧ calculateChecksum ("123456789".data) = 7
    ∧ (∀ c : Char, validateCheckDigit ("123456789".data) c = true ↔ c = '7') := by
  have hsum : ∀ data : List Char,
      calculateChecksum data
        = (List.sum ((List.range data.length).map
            (fun i => specValue (data.getD i '<') * specWeight (i % 3)))) % 10 := by
    intro data
    unfold calculateChecksum
    rw [checksumSumFrom_eq_sum data 0]
    congr 1
    apply congrArg List.sum
    apply List.map_congr_left
    intro i _
    rw [charToValue_eq_specValue, Nat.zero_add, weight_table_eq_specWeight]
  have h7 : calculateChecksum ("123456789".data) = 7 := by decide
  refine ⟨hsum, h7, ?_⟩
  intro c
  unfold validateCheckDigit
  by_cases hd : isdigitC c = true
  · rw [if_pos hd, h7]
    unfold isdigitC at hd
    simp only [decide_eq_true_eq] at hd
    constructor
    · intro h
      simp only [beq_iff_eq] at h
      have hc : c.toNat = 55 := by omega
      have := congrArg Char.ofNat hc
      rw [Char.ofNat_toNat] at this
      rw [this]
    · intro h
      subst h
      decide
  · rw [if_neg hd]
    simp only [Bool.false_eq_true, false_iff]
    intro h
    subst h
    exact hd (by decide)

/-- The C++ `%` operator (truncated remainder, `Int.tmod`) followed by the
`if (digit10 < 0) digit10 += 10;` fix-up of `validateTCKN` computes the
mathematical remainder modulo 10. -/
theorem tmod_fix_eq_emod (a : Int) :
    (if a.tmod 10 < 0 then a.tmod 10 + 10 else a.tmod 10) = a % 10 := by
  have h1 := Int.tmod_add_tdiv a 10
  have h2 := Int.tmod_lt_of_pos a (by norm_num : (0:Int) < 10)
  have h3 : -10 < a.tmod 10 := by
    rcases le_or_lt 0 a with h | h
    · have := Int.tmod_nonneg 10 h
      omega
    · have h4 : (-a).tdiv 10 = -(a.tdiv 10) := Int.neg_tdiv a 10
      have h5 := Int.tmod_add_tdiv (-a) 10
      have h6 := Int.tmod_lt_of_pos (-a) (by norm_num : (0:Int) < 10)
      omega
  have h7 : a.tmod 10 - a % 10 = 10 * (a / 10 - a.tdiv 10) := by omega
  have h8 : 0 ≤ a % 10 := Int.emod_nonneg a (by norm_num)
  have h9 : a % 10 < 10 := Int.emod_lt_of_pos a (by norm_num)
  by_cases hc : a.tmod 10 < 0 <;>
    simp only [hc, if_true, if_false, if_pos, if_neg, not_lt] <;> omega

theorem char_eq_ofNat_iff_toNat (c : Char) (n : Nat) (h : n < 55296) :
    c = Char.ofNat n ↔ c.toNat = n := by
  constructor
  · intro he
    subst he
    unfold Char.ofNat
    rw [dif_pos (Or.inl (by omega))]
    rfl
  · intro ht
    have := congrArg Char.ofNat ht
    rwa [Char.ofNat_toNat] at this

/-- The C++ expression `tckn[i] - '0'` of `validateTCKN`, computed as an
`int` (so possibly negative for characters below '0'). -/
def tcknD (tckn : List Char) (i : Nat) : Int := ((tckn.getD i ' ').toNat : Int) - 48

/-- The `odds` accumulator of `validateTCKN` (digits at 0-indexed
positions 0,2,4,6,8). -/
def tcknOdds (tckn : List Char) : Int :=
  tcknD tckn 0 + tcknD tckn 2 + tcknD tckn 4 + tcknD tckn 6 + tcknD tckn 8

/-- The `evens` accumulator of `validateTCKN` (digits at 0-indexed
positions 1,3,5,7). -/
def tcknEvens (tckn : List Char) : Int :=
  tcknD tckn 1 + tcknD tckn 3 + tcknD tckn 5 + tcknD tckn 7

/-- The `digit10` local of `validateTCKN` (VisionProcessor.cpp:740-741):
C++ truncated `%` followed by the negative fix-up. -/
def tcknDigit10 (tckn : List Char) : Int :=
  if (tcknOdds tckn * 7 - tcknEvens tckn).tmod 10 < 0
  then (tcknOdds tckn * 7 - tcknEvens tckn).tmod 10 + 10
  else (tcknOdds tckn * 7 - tcknEvens tckn).tmod 10

/-- `MRZValidator::validateTCKN` (VisionProcessor.cpp:728-755).  The C++
early returns become nested conditionals; the digit-scan loop over the
first nine characters becomes the test over `List.range 9`; `sum10` is
`tcknOdds + tcknEvens` plus `digit10`. -/
def validateTCKN (tckn : List Char) : Bool :=
  if (tckn.length != 11) || (tckn.getD 0 ' ' == '0') then false
  else if !((List.range 9).all fun i => isdigitC (tckn.getD i ' ')) then false
  else if tcknDigit10 tckn != tcknD tckn 9 then false
  else ((tcknOdds tckn + tcknEvens tckn) + tcknDigit10 tckn) % 10 == tcknD tckn 10

/-- The value of the `i`-th character of a TCKN candidate as a decimal
digit, as the specification words it. -/
def tcknDigit (s : List Char) (i : Nat) : Nat := (s.getD i ' ').toNat - 48

/-- Sum of the TCKN digits at 0-indexed positions 0,2,4,6,8
(1-indexed digits d1,d3,d5,d7,d9), as the specification words it. -/
def specOddSum (s : List Char) : Nat :=
  tcknDigit s 0 + tcknDigit s 2 + tcknDigit s 4 + tcknDigit s 6 + tcknDigit s 8

/-- Sum of the TCKN digits at 0-indexed positions 1,3,5,7
(1-indexed digits d2,d4,d6,d8), as the specification words it. -/
def specEvenSum (s : List Char) : Nat :=
  tcknDigit s 1 + tcknDigit s 3 + tcknDigit s 5 + tcknDigit s 7

/-- The 10th TCKN digit required by the specification:
`((oddSum * 7) - evenSum) mod 10` normalized into `[0, 9]`. -/
def specDigit10 (s : List Char) : Nat :=
  (((specOddSum s : Int) * 7 - specEvenSum s) % 10).toNat

/-- The 11th TCKN digit required by the specification:
`(d1 + ... + d9 + digit10) mod 10`. -/
def specDigit11 (s : List Char) : Nat :=
  (specOddSum s + specEvenSum s + specDigit10 s) % 10

theorem specDigit10_lt (s : List Char) : specDigit10 s < 10 := by
  unfold specDigit10
  have h8 : 0 ≤ ((specOddSum s : Int) * 7 - specEvenSum s) % 10 :=
    Int.emod_nonneg _ (by norm_num)
  have h9 : ((specOddSum s : Int) * 7 - specEvenSum s) % 10 < 10 :=
    Int.emod_lt_of_pos _ (by norm_num)
  omega

/-- C2: `validateTCKN s` holds exactly when `s` has length 11, does not
start with '0', its first nine characters are decimal digits, its 10th
character is the digit `((d1+d3+d5+d7+d9)*7 - (d2+d4+d6+d8)) mod 10`
(normalized into `[0,9]`), and its 11th character is the digit
`(d1+...+d9+digit10) mod 10`; concretely `"12345678950"` validates and
flipping its final digit invalidates it. -/
theorem tcknOdds_cast (s : List Char)
    (hb : ∀ i < 9, 48 ≤ (s.getD i ' ').toNat) :
    tcknOdds s = (specOddSum s : Int) := by
  have h0 := hb 0 (by omega)
  have h2 := hb 2 (by omega)
  have h4 := hb 4 (by omega)
  have h6 := hb 6 (by omega)
  have h8 := hb 8 (by omega)
  unfold tcknOdds tcknD specOddSum tcknDigit
  push_cast
  omega

theorem tcknEvens_cast (s : List Char)
    (hb : ∀ i < 9, 48 ≤ (s.getD i ' ').toNat) :
    tcknEvens s = (specEvenSum s : Int) := by
  have h1 := hb 1 (by omega)
  have h3 := hb 3 (by omega)
  have h5 := hb 5 (by omega)
  have h7 := hb 7 (by omega)
  unfold tcknEvens tcknD specEvenSum tcknDigit
  push_cast
  omega

theorem tcknDigit10_cast (s : List Char)
    (hb : ∀ i < 9, 48 ≤ (s.getD i ' ').toNat) :
    tcknDigit10 s = (specDigit10 s : Int) := by
  unfold tcknDigit10
  rw [tcknOdds_cast s hb, tcknEvens_cast s hb, tmod_fix_eq_emod]
  unfold specDigit10
  rw [Int.toNat_of_nonneg (Int.emod_nonneg _ (by norm_num))]

set_option maxRecDepth 8192 in
/-- C2: `validateTCKN s` holds exactly when `s` has length 11, does not
start with '0', its first nine characters are decimal digits, its 10th
character is the digit `((d1+d3+d5+d7+d9)*7 - (d2+d4+d6+d8)) mod 10`
(normalized into `[0,9]`), and its 11th character is the digit
`(d1+...+d9+digit10) mod 10`; concretely `"12345678950"` validates and
flipping its final digit invalidates it. -/
theorem validateTCKN_spec :
    (∀ s : List Char,
      validateTCKN s = true ↔
        (s.length = 11 ∧ s.getD 0 ' ' ≠ '0' ∧
         (∀ i < 9, isdigitC (s.getD i ' ') = true) ∧
         s.getD 9 ' ' = Char.ofNat (48 + specDigit10 s) ∧
         s.getD 10 ' ' = Char.ofNat (48 + specDigit11 s)))
    ∧ validateTCKN ("12345678950".data) = true
    ∧ (∀ c : Char, c ≠ '0' → validateTCKN ("1234567895".data ++ [c]) = false) := by
  have hmain : ∀ s : List Char,
      validateTCKN s = true ↔
        (s.length = 11 ∧ s.getD 0 ' ' ≠ '0' ∧
         (∀ i < 9, isdigitC (s.getD i ' ') = true) ∧
         s.getD 9 ' ' = Char.ofNat (48 + specDigit10 s) ∧
         s.getD 10 ' ' = Char.ofNat (48 + specDigit11 s)) := by
    intro s
    rw [char_eq_ofNat_iff_toNat _ _ (by have := specDigit10_lt s; omega),
      char_eq_ofNat_iff_toNat _ _
        (by have : specDigit11 s < 10 := Nat.mod_lt _ (by omega); omega)]
    unfold validateTCKN
    by_cases hLen : s.length = 11
    swap
    · rw [if_pos (by simp [hLen])]
      simp only [Bool.false_eq_true, false_iff]
      rintro ⟨h, -, -, -, -⟩
      exact hLen h
    by_cases h0 : s.getD 0 ' ' = '0'
    · rw [if_pos (by
        have h2 : (s.getD 0 ' ' == '0') = true := beq_iff_eq.mpr h0
        rw [h2, Bool.or_true])]
      simp only [Bool.false_eq_true, false_iff]
      rintro ⟨-, hne, -, -, -⟩
      exact hne h0
    rw [if_neg (by
      have h1 : (s.length != 11) = false := by simp [hLen]
      have h2 : (s.getD 0 ' ' == '0') = false := beq_eq_false_iff_ne.mpr h0
      rw [h1, h2]
      simp)]
    by_cases hdig : ∀ i < 9, isdigitC (s.getD i ' ') = true
    swap
    · rw [if_pos (by
        simp only [Bool.not_eq_true', List.all_eq_false]
        push_neg at hdig
        obtain ⟨i, hi, hni⟩ := hdig
        exact ⟨i, List.mem_range.mpr hi, hni⟩)]
      simp only [Bool.false_eq_true, false_iff]
      rintro ⟨-, -, hd, -, -⟩
      exact hdig hd
    rw [if_neg (by
      simp only [Bool.not_eq_true', Bool.not_eq_false, List.all_eq_true]
      intro i hi
      exact hdig i (List.mem_range.mp hi))]
    have hb : ∀ i < 9, 48 ≤ (s.getD i ' ').toNat := by
      intro i hi
      have := hdig i hi
      unfold isdigitC at this
      simp only [decide_eq_true_eq] at this
      exact this.1
    have hd10 := tcknDigit10_cast s hb
    have hodds := tcknOdds_cast s hb
    have hevens := tcknEvens_cast s hb
    have h10lt := specDigit10_lt s
    by_cases h9 : (s.getD 9 ' ').toNat = 48 + specDigit10 s
    swap
    · rw [if_pos (by
        simp only [bne_iff_ne, Ne, hd10]
        unfold tcknD
        intro hcontra
        omega)]
      simp only [Bool.false_eq_true, false_iff]
      rintro ⟨-, -, -, h9c, -⟩
      exact h9 h9c
    rw [if_neg (by
      simp only [bne_iff_ne, Ne, hd10, not_not]
      unfold tcknD
      omega)]
    simp only [beq_iff_eq, hd10, hodds, hevens]
    unfold tcknD specDigit11
    constructor
    · intro hval
      refine ⟨hLen, h0, hdig, h9, ?_⟩
      omega
    · rintro ⟨-, -, -, -, h11⟩
      omega
  refine ⟨hmain, by decide, ?_⟩
  intro c hc
  rw [Bool.eq_false_iff]
  intro htrue
  rw [hmain ("1234567895".data ++ [c])] at htrue
  obtain ⟨-, -, -, -, h11⟩ := htrue
  have hd : specDigit11 ("1234567895".data ++ [c]) = 0 := by
    show specDigit11
      ('1' :: '2' :: '3' :: '4' :: '5' :: '6' :: '7' :: '8' :: '9' :: '5' :: [c]) = 0
    unfold specDigit11 specDigit10 specOddSum specEvenSum tcknDigit
    norm_num
    decide
  rw [hd] at h11
  have hc10 : ("1234567895".data ++ [c]).getD 10 ' ' = c := by
    show ('1' :: '2' :: '3' :: '4' :: '5' :: '6' :: '7' :: '8' :: '9' :: '5' :: [c]).getD
      10 ' ' = c
    rfl
  rw [hc10] at h11
  exact hc (h11.trans (by decide))

theorem validateTCKN_spec_witness :
    validateTCKN ("1234567895".data ++ ['9']) = false :=
  validateTCKN_spec.2.2 '9' (by decide)

/-- The per-character body of the `for` loop of
`MRZValidator::correctOCRErrors` (VisionProcessor.cpp:695-722):
uppercase, then the `switch` over OCR-confusable characters, keeping any
other character in `A`-`Z`, `0`-`9`, `'<'`, and turning everything else
into the filler `'<'`. -/
def correctChar (c : Char) : Char :=
  if toupperC c = 'O' then '0'
  else if toupperC c = 'I' then '1'
  else if toupperC c = 'S' then '5'
  else if toupperC c = 'B' then '8'
  else if toupperC c = 'G' then '6'
  else if toupperC c = 'D' then '0'
  else if toupperC c = 'Q' then '0'
  else if toupperC c = 'Z' then '2'
  else if toupperC c = ' ' then '<'
  else if toupperC c = '.' then '<'
  else if ('A' ≤ toupperC c ∧ toupperC c ≤ 'Z')
      ∨ ('0' ≤ toupperC c ∧ toupperC c ≤ '9') ∨ toupperC c = '<' then toupperC c
  else '<'

/-- `MRZValidator::correctOCRErrors` (VisionProcessor.cpp:691-726): the
loop appends `correctChar` of each input character in order, so the whole
function is a `map`. -/
def correctOCRErrors (line : List Char) : List Char := line.map correctChar

/-- The substitution table exactly as listed in the specification. -/
def specSubstTable : List (Char × Char) :=
  [('O', '0'), ('I', '1'), ('S', '5'), ('B', '8'), ('G', '6'),
   ('D', '0'), ('Q', '0'), ('Z', '2'), (' ', '<'), ('.', '<')]

/-- Per-character OCR correction as worded in the specification: after
uppercasing, look the character up in the substitution table; otherwise
keep it if it already lies in `[A-Z0-9<]`, and map every remaining
character to `'<'`. -/
def specCorrectChar (c : Char) : Char :=
  match specSubstTable.lookup (toupperC c) with
  | some d => d
  | none =>
      if ('A' ≤ toupperC c ∧ toupperC c ≤ 'Z')
          ∨ ('0' ≤ toupperC c ∧ toupperC c ≤ '9') ∨ toupperC c = '<'
      then toupperC c else '<'

theorem correctChar_eq_specCorrectChar (c : Char) :
    correctChar c = specCorrectChar c := by
  unfold correctChar specCorrectChar specSubstTable
  generalize toupperC c = u
  by_cases h1 : u = 'O'
  · subst h1; decide
  by_cases h2 : u = 'I'
  · subst h2; decide
  by_cases h3 : u = 'S'
  · subst h3; decide
  by_cases h4 : u = 'B'
  · subst h4; decide
  by_cases h5 : u = 'G'
  · subst h5; decide
  by_cases h6 : u = 'D'
  · subst h6; decide
  by_cases h7 : u = 'Q'
  · subst h7; decide
  by_cases h8 : u = 'Z'
  · subst h8; decide
  by_cases h9 : u = ' '
  · subst h9; decide
  by_cases h10 : u = '.'
  · subst h10; decide
  have b1 : (u == ('O' : Char)) = false := beq_eq_false_iff_ne.mpr h1
  have b2 : (u == ('I' : Char)) = false := beq_eq_false_iff_ne.mpr h2
  have b3 : (u == ('S' : Char)) = false := beq_eq_false_iff_ne.mpr h3
  have b4 : (u == ('B' : Char)) = false := beq_eq_false_iff_ne.mpr h4
  have b5 : (u == ('G' : Char)) = false := beq_eq_false_iff_ne.mpr h5
  have b6 : (u == ('D' : Char)) = false := beq_eq_false_iff_ne.mpr h6
  have b7 : (u == ('Q' : Char)) = false := beq_eq_false_iff_ne.mpr h7
  have b8 : (u == ('Z' : Char)) = false := beq_eq_false_iff_ne.mpr h8
  have b9 : (u == (' ' : Char)) = false := beq_eq_false_iff_ne.mpr h9
  have b10 : (u == ('.' : Char)) = false := beq_eq_false_iff_ne.mpr h10
  simp only [List.lookup, b1, b2, b3, b4, b5, b6, b7, b8, b9, b10,
    h1, h2, h3, h4, h5, h6, h7, h8, h9, h10, if_false]

/-- C4: `correctOCRErrors` maps each character of the line independently
through the specification's substitution: uppercase first, then
O→0, I→1, S→5, B→8, G→6, D→0, Q→0, Z→2, space→'<', '.'→'<'; any other
character already in `[A-Z0-9<]` is kept, and every remaining character
becomes `'<'`. -/
theorem correctOCRErrors_spec (line : List Char) :
    correctOCRErrors line = line.map specCorrectChar := by
  unfold correctOCRErrors
  apply List.map_congr_left
  intro c _
  exact correctChar_eq_specCorrectChar c

/-- `ValidationScore` (VisionProcessor.h:28-41). -/
structure ValidationScore where
  totalScore : Nat
  docNumScore : Nat
  dobScore : Nat
  expiryScore : Nat
  compositeScore : Nat
  docNumValid : Bool
  dobValid : Bool
  expiryValid : Bool
  compositeValid : Bool
  correctedLine1 : List Char
  correctedLine2 : List Char
  correctedLine3 : List Char
  deriving DecidableEq

/-- `std::string::resize(30, '<')` as used by `validateWithScore`
(VisionProcessor.cpp:599-601): a shorter string is padded with `'<'` up
to length 30 and a longer string is truncated to its first 30
characters. -/
def resize30 (l : List Char) : List Char :=
  l.take 30 ++ List.replicate (30 - l.length) '<'

/-- `std::string::substr(pos, len)` on an in-range position. -/
def substrL (l : List Char) (pos len : Nat) : List Char :=
  (l.drop pos).take len

/-- A corrected-and-padded MRZ line as built at the top of
`validateWithScore` (VisionProcessor.cpp:590-601). -/
def paddedLine (raw : List Char) : List Char :=
  resize30 (correctOCRErrors raw)

/-- Document-number check of `validateWithScore`
(VisionProcessor.cpp:605-616): `line1.substr(5, 9)` against the check
character `line1[14]`, guarded by `line1.length() >= 15`. -/
def docNumOk (line1 : List Char) : Bool :=
  if 15 ≤ line1.length
  then validateCheckDigit (substrL line1 5 9) (line1.getD 14 ' ')
  else false

/-- Birth-date check of `validateWithScore` (VisionProcessor.cpp:630-642):
`line2.substr(0, 6)` against `line2[6]`, guarded by
`line2.length() >= 7`. -/
def dobOk (line2 : List Char) : Bool :=
  if 7 ≤ line2.length
  then validateCheckDigit (substrL line2 0 6) (line2.getD 6 ' ')
  else false

/-- Expiry-date check of `validateWithScore` (VisionProcessor.cpp:645-657):
`line2.substr(8, 6)` against `line2[14]`, guarded by
`line2.length() >= 15`. -/
def expiryOk (line2 : List Char) : Bool :=
  if 15 ≤ line2.length
  then validateCheckDigit (substrL line2 8 6) (line2.getD 14 ' ')
  else false

/-- The composite data of `validateWithScore`
(VisionProcessor.cpp:662-666):
`line1.substr(5,25) + line2.substr(0,7) + line2.substr(8,7) +
line2.substr(18,11)`. -/
def compositeData (line1 line2 : List Char) : List Char :=
  substrL line1 5 25 ++ substrL line2 0 7 ++ substrL line2 8 7 ++ substrL line2 18 11

/-- Composite check of `validateWithScore` (VisionProcessor.cpp:661-678):
the composite data against `line2[29]`, guarded by both lines having
length at least 30. -/
def compositeOk (line1 line2 : List Char) : Bool :=
  if 30 ≤ line1.length ∧ 30 ≤ line2.length
  then validateCheckDigit (compositeData line1 line2) (line2.getD 29 ' ')
  else false

/-- `MRZValidator::validateWithScore` (VisionProcessor.cpp:582-689):
corrects the three raw lines, pads them via `resize(30, '<')`, runs the
four checks, awards 15 points per passed check, and sums the points.
The TCKN side-scan at VisionProcessor.cpp:619-625 only logs and does not
affect the result, so it is not part of the model. -/
def validateWithScore (line1Raw line2Raw line3Raw : List Char) : ValidationScore :=
  { totalScore :=
      (if docNumOk (paddedLine line1Raw) then 15 else 0)
      + (if dobOk (paddedLine line2Raw) then 15 else 0)
      + (if expiryOk (paddedLine line2Raw) then 15 else 0)
      + (if compositeOk (paddedLine line1Raw) (paddedLine line2Raw) then 15 else 0),
    docNumScore := if docNumOk (paddedLine line1Raw) then 15 else 0,
    dobScore := if dobOk (paddedLine line2Raw) then 15 else 0,
    expiryScore := if expiryOk (paddedLine line2Raw) then 15 else 0,
    compositeScore := if compositeOk (paddedLine line1Raw) (paddedLine line2Raw) then 15 else 0,
    docNumValid := docNumOk (paddedLine line1Raw),
    dobValid := dobOk (paddedLine line2Raw),
    expiryValid := expiryOk (paddedLine line2Raw),
    compositeValid := compositeOk (paddedLine line1Raw) (paddedLine line2Raw),
    correctedLine1 := correctOCRErrors line1Raw,
    correctedLine2 := correctOCRErrors line2Raw,
    correctedLine3 := correctOCRErrors line3Raw }

theorem resize30_length (l : List Char) : (resize30 l).length = 30 := by
  unfold resize30
  rw [List.length_append, List.length_take, List.length_replicate]
  omega

theorem paddedLine_length (raw : List Char) : (paddedLine raw).length = 30 :=
  resize30_length _

/-- C5 (corrected): `resize(30, '<')` pads a corrected line shorter than
30 characters with `'<'` up to length 30, and truncates a longer line to
its first 30 characters, so the padded line always has length exactly
30 before the substring reads. -/
theorem resize30_pads_and_truncates (l : List Char) :
    (resize30 l).length = 30
    ∧ (l.length ≤ 30 → resize30 l = l ++ List.replicate (30 - l.length) '<')
    ∧ (30 ≤ l.length → resize30 l = l.take 30) := by
  refine ⟨resize30_length l, ?_, ?_⟩
  · intro h
    unfold resize30
    rw [List.take_of_length_le h]
  · intro h
    unfold resize30
    have h0 : 30 - l.length = 0 := by omega
    rw [h0, List.replicate_zero, List.append_nil]

theorem resize30_pads_and_truncates_witness :
    (resize30 (List.replicate 5 'A')).length = 30
    ∧ resize30 (List.replicate 5 'A')
        = List.replicate 5 'A' ++ List.replicate (30 - (List.replicate 5 'A').length) '<'
    ∧ resize30 (List.replicate 31 'B') = (List.replicate 31 'B').take 30 :=
  ⟨(resize30_pads_and_truncates (List.replicate 5 'A')).1,
   (resize30_pads_and_truncates (List.replicate 5 'A')).2.1 (by decide),
   (resize30_pads_and_truncates (List.replicate 31 'B')).2.2 (by decide)⟩

/-- C5 counterexample: the claim that a corrected line longer than 30
characters is used as-is (never truncated) fails: `resize(30, '<')` cuts
a 31-character line down to its first 30 characters. -/
theorem resize30_not_id_on_long :
    resize30 (List.replicate 31 'A') = List.replicate 30 'A'
    ∧ resize30 (List.replicate 31 'A') ≠ List.replicate 31 'A' := by
  constructor
  · decide
  · decide

theorem validateCheckDigit_iff (data : List Char) (c : Char) :
    validateCheckDigit data c = true
      ↔ (isdigitC c = true ∧ calculateChecksum data = c.toNat - 48) := by
  unfold validateCheckDigit
  by_cases hd : isdigitC c = true
  · rw [if_pos hd]
    simp [hd, beq_iff_eq]
  · rw [if_neg hd]
    simp [hd]

theorem if15_eq_15_iff (b : Bool) :
    ((if b then (15 : Nat) else 0) = 15) ↔ b = true := by
  cases b <;> simp

/-- C3: `validateWithScore` awards the composite 15 points exactly when
the ICAO checksum of `line1[5,30) ++ line2[0,7) ++ line2[8,15) ++
line2[18,29)` (on the corrected, padded lines) equals the value of the
ASCII digit at position 29 of the padded `line2`. -/
theorem compositeScore_iff (l1 l2 l3 : List Char) :
    (validateWithScore l1 l2 l3).compositeScore = 15 ↔
      (isdigitC ((paddedLine l2).getD 29 ' ') = true
       ∧ calculateChecksum
           (((paddedLine l1).take 30).drop 5
             ++ ((paddedLine l2).take 7).drop 0
             ++ ((paddedLine l2).take 15).drop 8
             ++ ((paddedLine l2).take 29).drop 18)
         = ((paddedLine l2).getD 29 ' ').toNat - 48) := by
  have hcomp : ((paddedLine l1).take 30).drop 5
      ++ ((paddedLine l2).take 7).drop 0
      ++ ((paddedLine l2).take 15).drop 8
      ++ ((paddedLine l2).take 29).drop 18
      = compositeData (paddedLine l1) (paddedLine l2) := by
    unfold compositeData substrL
    simp [List.drop_take]
  rw [hcomp]
  rw [show (validateWithScore l1 l2 l3).compositeScore
      = (if compositeOk (paddedLine l1) (paddedLine l2) then 15 else 0) from rfl]
  rw [if15_eq_15_iff]
  unfold compositeOk
  rw [if_pos ⟨le_of_eq (paddedLine_length l1).symm, le_of_eq (paddedLine_length l2).symm⟩]
  exact validateCheckDigit_iff _ _

/-- C10: every `ValidationScore` produced by `validateWithScore` has each
of the four per-field scores equal to 0 or 15, equal to 15 exactly when
the corresponding valid flag is set, and a total that is the sum of the
four, hence one of 0, 15, 30, 45, 60. -/
theorem validateWithScore_partition (l1 l2 l3 : List Char) :
    ((validateWithScore l1 l2 l3).docNumScore = 0
      ∨ (validateWithScore l1 l2 l3).docNumScore = 15)
    ∧ ((validateWithScore l1 l2 l3).dobScore = 0
      ∨ (validateWithScore l1 l2 l3).dobScore = 15)
    ∧ ((validateWithScore l1 l2 l3).expiryScore = 0
      ∨ (validateWithScore l1 l2 l3).expiryScore = 15)
    ∧ ((validateWithScore l1 l2 l3).compositeScore = 0
      ∨ (validateWithScore l1 l2 l3).compositeScore = 15)
    ∧ ((validateWithScore l1 l2 l3).docNumScore = 15
      ↔ (validateWithScore l1 l2 l3).docNumValid = true)
    ∧ ((validateWithScore l1 l2 l3).dobScore = 15
      ↔ (validateWithScore l1 l2 l3).dobValid = true)
    ∧ ((validateWithScore l1 l2 l3).expiryScore = 15
      ↔ (validateWithScore l1 l2 l3).expiryValid = true)
    ∧ ((validateWithScore l1 l2 l3).compositeScore = 15
      ↔ (validateWithScore l1 l2 l3).compositeValid = true)
    ∧ (validateWithScore l1 l2 l3).totalScore
        = (validateWithScore l1 l2 l3).docNumScore
          + (validateWithScore l1 l2 l3).dobScore
          + (validateWithScore l1 l2 l3).expiryScore
          + (validateWithScore l1 l2 l3).compositeScore
    ∧ ((validateWithScore l1 l2 l3).totalScore = 0
      ∨ (validateWithScore l1 l2 l3).totalScore = 15
      ∨ (validateWithScore l1 l2 l3).totalScore = 30
      ∨ (validateWithScore l1 l2 l3).totalScore = 45
      ∨ (validateWithScore l1 l2 l3).totalScore = 60) := by
  cases h1 : docNumOk (paddedLine l1) <;>
    cases h2 : dobOk (paddedLine l2) <;>
      cases h3 : expiryOk (paddedLine l2) <;>
        cases h4 : compositeOk (paddedLine l1) (paddedLine l2) <;>
          simp_all [validateWithScore]

/-
Symbolic image model.  The numeric kernels of the OpenCV filters live
outside this repository, so an image is modelled by its dimensions, its
channel count and the exact sequence of filter invocations that produced
it; two pipelines are equal exactly when they apply the same operations
with the same parameters to the same geometry.  Fractional OpenCV
parameters are scaled to integers (`claheClipTenths` is 10 times the
CLAHE clip limit).
-/

/-- One OpenCV operation as invoked by VisionProcessor.cpp, with its
parameters. -/
inductive ImgOp where
  | cvtGray : ImgOp
  | gaussianBlur (k : Nat) : ImgOp
  | clahe (clipTenths : Nat) (tile : Nat) : ImgOp
  | fastNlMeansDenoise (strength tw sw : Nat) : ImgOp
  | adaptiveThreshGaussian (blockSize : Nat) (c : Nat) : ImgOp
  | morphClose (k : Nat) : ImgOp
  | medianBlur (k : Nat) : ImgOp
  | cropRect (x y w h : Nat) : ImgOp
  | warpPerspective (w h : Nat) : ImgOp
  deriving DecidableEq

/-- A `cv::Mat` described by its geometry and the operation history that
produced it. -/
structure MatDesc where
  rows : Nat
  cols : Nat
  channels : Nat
  ops : List ImgOp
  deriving DecidableEq

/-- The default-constructed `cv::Mat()` returned on failure paths. -/
def emptyMat : MatDesc := ⟨0, 0, 0, []⟩

/-- `cv::Mat::empty()`: no pixels. -/
def MatDesc.isEmpty (m : MatDesc) : Bool := m.rows * m.cols == 0

/-- The grayscale-conversion preamble shared by the pipelines
(`if channels == 3 or 4 then cvtColor else clone`). -/
def toGray (src : MatDesc) : MatDesc :=
  if src.channels = 3 ∨ src.channels = 4
  then { src with channels := 1, ops := src.ops ++ [ImgOp.cvtGray] }
  else src

/-- `VisionProcessor::binarizeForOCR` (VisionProcessor.cpp:242-283):
grayscale, CLAHE (clip 2.0, 8x8 tiles), `fastNlMeansDenoising(10, 7, 21)`,
adaptive Gaussian threshold (block 15, C 10), morphological close (1x1),
median blur (3x3). -/
def binarizeForOCR (src : MatDesc) : MatDesc :=
  if src.isEmpty then emptyMat
  else
    let gray := toGray src
    { gray with ops := gray.ops
        ++ [ImgOp.clahe 20 8, ImgOp.fastNlMeansDenoise 10 7 21,
            ImgOp.adaptiveThreshGaussian 15 10, ImgOp.morphClose 1,
            ImgOp.medianBlur 3] }

/-- `static_cast<int>(src.rows * MRZ_TOP_RATIO)` with
`MRZ_TOP_RATIO = 0.72f` (VisionProcessor.cpp:291, VisionProcessor.h:58):
the truncated product, i.e. `⌊0.72 * rows⌋`.  (The binary float `0.72f`
exceeds 72/100 by less than 3e-8, which cannot move the floor for any
realistic image height.) -/
def mrzTop (rows : Nat) : Nat := (72 * rows) / 100

/-- `VisionProcessor::extractMRZRegion` (VisionProcessor.cpp:285-301):
crop rows `[mrzTop, rows)` at full width, then apply `binarizeForOCR` to
the crop. -/
def extractMRZRegion (src : MatDesc) : MatDesc :=
  if src.isEmpty then emptyMat
  else
    binarizeForOCR
      { src with
        rows := src.rows - mrzTop src.rows,
        ops := src.ops
          ++ [ImgOp.cropRect 0 (mrzTop src.rows) src.cols (src.rows - mrzTop src.rows)] }

/-- The MRZ-specific light binarization profile of
`VisionProcessor::extractROI` for `ROIType::MRZ`
(VisionProcessor.cpp:418-439): grayscale, 3x3 Gaussian blur, adaptive
Gaussian threshold (block 13, C 10) — no CLAHE, no denoising. -/
def mrzROIBinarize (roi : MatDesc) : MatDesc :=
  let gray := toGray roi
  { gray with ops := gray.ops
      ++ [ImgOp.gaussianBlur 3, ImgOp.adaptiveThreshGaussian 13 10] }

/-- What the specification asserts `extractMRZRegion` does: crop the
bottom band and then binarize with the light MRZ profile (grayscale,
3x3 Gaussian blur, adaptive threshold block 13 constant 10) instead of
the general pipeline. -/
def specMRZRegionLight (src : MatDesc) : MatDesc :=
  if src.isEmpty then emptyMat
  else
    mrzROIBinarize
      { src with
        rows := src.rows - mrzTop src.rows,
        ops := src.ops
          ++ [ImgOp.cropRect 0 (mrzTop src.rows) src.cols (src.rows - mrzTop src.rows)] }

/-- C6 counterexample: on a non-empty 540x856 3-channel card,
`extractMRZRegion` does not apply the light MRZ profile claimed by the
specification; it crops and then runs the general `binarizeForOCR`
pipeline (CLAHE, denoise, block 15), as its operation trace shows. -/
theorem extractMRZRegion_not_light :
    extractMRZRegion ⟨540, 856, 3, []⟩ ≠ specMRZRegionLight ⟨540, 856, 3, []⟩
    ∧ (extractMRZRegion ⟨540, 856, 3, []⟩).ops
        = [ImgOp.cropRect 0 388 856 152, ImgOp.cvtGray, ImgOp.clahe 20 8,
           ImgOp.fastNlMeansDenoise 10 7 21, ImgOp.adaptiveThreshGaussian 15 10,
           ImgOp.morphClose 1, ImgOp.medianBlur 3]
    ∧ (specMRZRegionLight ⟨540, 856, 3, []⟩).ops
        = [ImgOp.cropRect 0 388 856 152, ImgOp.cvtGray, ImgOp.gaussianBlur 3,
           ImgOp.adaptiveThreshGaussian 13 10] := by
  refine ⟨?_, ?_, ?_⟩ <;> decide

/-- C6 (corrected): for every non-empty card image, `extractMRZRegion`
crops rows `[⌊0.72 rows⌋, rows)` at full width and then binarizes the
crop with the general `binarizeForOCR` pipeline (grayscale, CLAHE clip
2.0 tiles 8x8, non-local-means denoise, adaptive Gaussian threshold
block 15 constant 10, 1x1 close, 3x3 median blur); the lighter MRZ
profile (3x3 Gaussian blur, block 13, constant 10) is applied only by
`extractROI` for the MRZ field type, modelled by `mrzROIBinarize`. -/
theorem extractMRZRegion_amended (m : MatDesc)
    (hne : m.isEmpty = false) (hch : m.channels = 3 ∨ m.channels = 4) :
    extractMRZRegion m
      = { rows := m.rows - mrzTop m.rows, cols := m.cols, channels := 1,
          ops := m.ops
            ++ [ImgOp.cropRect 0 (mrzTop m.rows) m.cols (m.rows - mrzTop m.rows),
                ImgOp.cvtGray, ImgOp.clahe 20 8, ImgOp.fastNlMeansDenoise 10 7 21,
                ImgOp.adaptiveThreshGaussian 15 10, ImgOp.morphClose 1,
                ImgOp.medianBlur 3] }
      ∧ mrzROIBinarize
          { rows := m.rows - mrzTop m.rows, cols := m.cols, channels := 1,
            ops := m.ops }
        = { rows := m.rows - mrzTop m.rows, cols := m.cols, channels := 1,
            ops := m.ops ++ [ImgOp.gaussianBlur 3, ImgOp.adaptiveThreshGaussian 13 10] } := by
  have hne2 : m.rows ≠ 0 ∧ m.cols ≠ 0 := by
    unfold MatDesc.isEmpty at hne
    rw [beq_eq_false_iff_ne] at hne
    exact Nat.mul_ne_zero_iff.mp hne
  have htop : mrzTop m.rows < m.rows := by
    unfold mrzTop
    omega
  constructor
  · unfold extractMRZRegion
    rw [if_neg (by simp [hne])]
    unfold binarizeForOCR
    rw [if_neg (by
      simp only [MatDesc.isEmpty, beq_iff_eq, Nat.mul_eq_zero, not_or]
      exact ⟨by omega, hne2.2⟩)]
    unfold toGray
    rw [if_pos (by
      rcases hch with h3 | h3
      · exact Or.inl h3
      · exact Or.inr h3)]
    simp [List.append_assoc]
  · unfold mrzROIBinarize toGray
    rw [if_neg (by norm_num)]

theorem extractMRZRegion_amended_witness :
    extractMRZRegion ⟨540, 856, 3, []⟩
      = { rows := 152, cols := 856, channels := 1,
          ops := [ImgOp.cropRect 0 388 856 152, ImgOp.cvtGray, ImgOp.clahe 20 8,
                  ImgOp.fastNlMeansDenoise 10 7 21, ImgOp.adaptiveThreshGaussian 15 10,
                  ImgOp.morphClose 1, ImgOp.medianBlur 3] }
    ∧ mrzROIBinarize ⟨152, 856, 1, []⟩
      = ⟨152, 856, 1, [ImgOp.gaussianBlur 3, ImgOp.adaptiveThreshGaussian 13 10]⟩ :=
  extractMRZRegion_amended ⟨540, 856, 3, []⟩ (by decide) (Or.inl rfl)

/-- A single-channel 8-bit image with concrete pixel values (row-major),
for the quality metrics whose arithmetic is elementary. -/
structure GrayMat where
  rows : Nat
  cols : Nat
  data : List Nat
  deriving DecidableEq

/-- `VisionProcessor::detectGlare` (VisionProcessor.cpp:303-327) on a
grayscale input: returns 1.0 for an empty image; otherwise
`threshold(gray, bright, 240, 255, THRESH_BINARY)` marks the pixels with
value strictly greater than 240 and the result is
`countNonZero(bright) / (rows * cols)`. -/
def detectGlare (g : GrayMat) : ℚ :=
  if g.rows * g.cols = 0 then 1
  else ((g.data.countP (fun p => decide (240 < p)) : ℚ) / ((g.rows * g.cols : Nat) : ℚ))

/-- C7 counterexample: the claim counts pixels with value `>= 240`, but
`cv::threshold(..., 240, 255, THRESH_BINARY)` marks only pixels strictly
greater than 240: on a 1x1 image whose single pixel is exactly 240 the
code returns 0 while the claimed ratio is 1. -/
theorem detectGlare_at_240 :
    detectGlare ⟨1, 1, [240]⟩ = 0
    ∧ ((([240] : List Nat).countP (fun p => decide (240 ≤ p)) : ℚ)
        / ((1 * 1 : Nat) : ℚ)) = 1
    ∧ detectGlare ⟨1, 1, [240]⟩
        ≠ ((([240] : List Nat).countP (fun p => decide (240 ≤ p)) : ℚ)
            / ((1 * 1 : Nat) : ℚ)) := by
  have h1 : detectGlare ⟨1, 1, [240]⟩ = 0 := by
    norm_num [detectGlare, List.countP, List.countP.go]
  have h2 : ((([240] : List Nat).countP (fun p => decide (240 ≤ p)) : ℚ)
      / ((1 * 1 : Nat) : ℚ)) = 1 := by
    norm_num [List.countP, List.countP.go]
  refine ⟨h1, h2, ?_⟩
  rw [h1, h2]
  norm_num

/-- C7 (corrected): for every non-empty image `detectGlare` returns the
number of pixels with value strictly greater than 240 divided by the
total pixel count, a ratio that always lies in `[0, 1]`; for an empty
image it returns 1.0 (worst case). -/
theorem detectGlare_spec :
    (∀ g : GrayMat, g.rows * g.cols = 0 → detectGlare g = 1)
    ∧ (∀ g : GrayMat, g.rows * g.cols ≠ 0 → g.data.length = g.rows * g.cols →
        (detectGlare g
            = ((g.data.countP (fun p => decide (240 < p)) : ℚ)
                / ((g.rows * g.cols : Nat) : ℚ))
         ∧ 0 ≤ detectGlare g ∧ detectGlare g ≤ 1)) := by
  constructor
  · intro g hg
    unfold detectGlare
    rw [if_pos hg]
  · intro g hg hlen
    have heq : detectGlare g
        = ((g.data.countP (fun p => decide (240 < p)) : ℚ)
            / ((g.rows * g.cols : Nat) : ℚ)) := by
      unfold detectGlare
      rw [if_neg hg]
    have hpos : (0 : ℚ) < ((g.rows * g.cols : Nat) : ℚ) := by
      have : 0 < g.rows * g.cols := Nat.pos_of_ne_zero hg
      exact_mod_cast this
    refine ⟨heq, ?_, ?_⟩
    · rw [heq]
      apply div_nonneg
      · exact_mod_cast Nat.zero_le _
      · exact le_of_lt hpos
    · rw [heq]
      rw [div_le_one hpos]
      have hle : g.data.countP (fun p => decide (240 < p)) ≤ g.rows * g.cols := by
        calc g.data.countP (fun p => decide (240 < p)) ≤ g.data.length :=
              List.countP_le_length _
          _ = g.rows * g.cols := hlen
      exact_mod_cast hle

theorem detectGlare_spec_witness :
    detectGlare ⟨0, 5, []⟩ = 1
    ∧ (detectGlare ⟨1, 2, [0, 255]⟩
        = ((([0, 255] : List Nat).countP (fun p => decide (240 < p)) : ℚ)
            / ((1 * 2 : Nat) : ℚ))
       ∧ 0 ≤ detectGlare ⟨1, 2, [0, 255]⟩ ∧ detectGlare ⟨1, 2, [0, 255]⟩ ≤ 1) :=
  ⟨detectGlare_spec.1 ⟨0, 5, []⟩ (by decide),
   detectGlare_spec.2 ⟨1, 2, [0, 255]⟩ (by decide) (by decide)⟩

/-- `ROIRegion` (ROIMapper.h:35-45): percentage rectangle plus
preprocessing hints.  The `float` percentages are modelled by their
decimal values; the clamping property proved below holds for arbitrary
rational values, so the sub-ulp gap between `0.03f` and `3/100` is
immaterial. -/
structure ROIRegion where
  x : Rat
  y : Rat
  width : Rat
  height : Rat
  invertColors : Bool
  binarizeBlockSize : Int
  binarizeC : Int
  deriving DecidableEq

/-- `ROIType` (ROIMapper.h:20-29). -/
inductive ROIType where
  | TCKN
  | SURNAME
  | NAME
  | MRZ
  | PHOTO
  | SERIAL
  | BIRTHDATE
  | EXPIRY
  deriving DecidableEq

/-- `FrontROI::TCKN` (ROIMapper.h:68-76). -/
def FrontROI_TCKN : ROIRegion := ⟨3/100, 20/100, 28/100, 12/100, false, 15, 8⟩

/-- `FrontROI::SURNAME` (ROIMapper.h:79-87). -/
def FrontROI_SURNAME : ROIRegion := ⟨3/100, 38/100, 55/100, 10/100, false, 21, 5⟩

/-- `FrontROI::NAME` (ROIMapper.h:90-98). -/
def FrontROI_NAME : ROIRegion := ⟨3/100, 48/100, 55/100, 10/100, false, 21, 5⟩

/-- `FrontROI::BIRTHDATE` (ROIMapper.h:101-109). -/
def FrontROI_BIRTHDATE : ROIRegion := ⟨3/100, 58/100, 40/100, 10/100, false, 17, 6⟩

/-- `FrontROI::SERIAL` (ROIMapper.h:112-120). -/
def FrontROI_SERIAL : ROIRegion := ⟨3/100, 68/100, 35/100, 10/100, false, 15, 7⟩

/-- `FrontROI::PHOTO` (ROIMapper.h:123-131). -/
def FrontROI_PHOTO : ROIRegion := ⟨68/100, 18/100, 28/100, 45/100, false, 0, 0⟩

/-- `BackROI::MRZ` (ROIMapper.h:163-171). -/
def BackROI_MRZ : ROIRegion := ⟨0, 72/100, 1, 28/100, true, 11, 4⟩

/-- `getROIRegion` (ROIMapper.h:233-250): back side always resolves to
the MRZ rectangle; front side resolves per type with `TCKN` as the
default. -/
def getROIRegion (t : ROIType) (isBackSide : Bool) : ROIRegion :=
  if isBackSide then
    match t with
    | ROIType.MRZ => BackROI_MRZ
    | _ => BackROI_MRZ
  else
    match t with
    | ROIType.TCKN => FrontROI_TCKN
    | ROIType.SURNAME => FrontROI_SURNAME
    | ROIType.NAME => FrontROI_NAME
    | ROIType.PHOTO => FrontROI_PHOTO
    | ROIType.SERIAL => FrontROI_SERIAL
    | ROIType.BIRTHDATE => FrontROI_BIRTHDATE
    | _ => FrontROI_TCKN

/-- `static_cast<int>` of a C++ float product: truncation toward zero. -/
def cppTruncToInt (q : Rat) : Int := if 0 ≤ q then ⌊q⌋ else -⌊-q⌋

/-- The clamped `x` of `VisionProcessor::extractROI`
(VisionProcessor.cpp:396-402): `max(0, min(int(region.x * cols),
cols - 1))`. -/
def roiX (cols : Int) (r : ROIRegion) : Int :=
  max 0 (min (cppTruncToInt (r.x * (cols : Rat))) (cols - 1))

/-- The clamped `y` of `extractROI` (VisionProcessor.cpp:397-403). -/
def roiY (rows : Int) (r : ROIRegion) : Int :=
  max 0 (min (cppTruncToInt (r.y * (rows : Rat))) (rows - 1))

/-- The clamped `w` of `extractROI` (VisionProcessor.cpp:398-404):
`max(1, min(int(region.width * cols), cols - x))`. -/
def roiW (cols : Int) (r : ROIRegion) : Int :=
  max 1 (min (cppTruncToInt (r.width * (cols : Rat))) (cols - roiX cols r))

/-- The clamped `h` of `extractROI` (VisionProcessor.cpp:399-405). -/
def roiH (rows : Int) (r : ROIRegion) : Int :=
  max 1 (min (cppTruncToInt (r.height * (rows : Rat))) (rows - roiY rows r))

theorem roiX_bounds (cols : Int) (r : ROIRegion) (hc : 1 ≤ cols) :
    0 ≤ roiX cols r ∧ roiX cols r ≤ cols - 1 := by
  unfold roiX
  constructor
  · exact le_max_left 0 _
  · apply max_le
    · omega
    · exact min_le_right _ _

theorem roiW_bounds (cols : Int) (r : ROIRegion) (hc : 1 ≤ cols) :
    1 ≤ roiW cols r ∧ roiX cols r + roiW cols r ≤ cols := by
  have hx := roiX_bounds cols r hc
  unfold roiW
  constructor
  · exact le_max_left 1 _
  · have hle : max 1 (min (cppTruncToInt (r.width * (cols : Rat))) (cols - roiX cols r))
        ≤ cols - roiX cols r := by
      apply max_le
      · omega
      · exact min_le_right _ _
    omega

/-- C8: for any field type, any side, and any card with at least one row
and one column, the clamped pixel rectangle computed by `extractROI`
satisfies `0 ≤ x ≤ cols-1`, `0 ≤ y ≤ rows-1`, `w ≥ 1`, `h ≥ 1`,
`x + w ≤ cols` and `y + h ≤ rows`, so the crop lies fully inside the
card. -/
theorem extractROI_rect_inside (t : ROIType) (side : Bool) (rows cols : Int)
    (hr : 1 ≤ rows) (hc : 1 ≤ cols) :
    0 ≤ roiX cols (getROIRegion t side)
    ∧ roiX cols (getROIRegion t side) ≤ cols - 1
    ∧ 0 ≤ roiY rows (getROIRegion t side)
    ∧ roiY rows (getROIRegion t side) ≤ rows - 1
    ∧ 1 ≤ roiW cols (getROIRegion t side)
    ∧ 1 ≤ roiH rows (getROIRegion t side)
    ∧ roiX cols (getROIRegion t side) + roiW cols (getROIRegion t side) ≤ cols
    ∧ roiY rows (getROIRegion t side) + roiH rows (getROIRegion t side) ≤ rows := by
  have hx := roiX_bounds cols (getROIRegion t side) hc
  have hy : 0 ≤ roiY rows (getROIRegion t side)
      ∧ roiY rows (getROIRegion t side) ≤ rows - 1 := by
    unfold roiY
    constructor
    · exact le_max_left 0 _
    · apply max_le
      · omega
      · exact min_le_right _ _
  have hw := roiW_bounds cols (getROIRegion t side) hc
  have hh : 1 ≤ roiH rows (getROIRegion t side)
      ∧ roiY rows (getROIRegion t side) + roiH rows (getROIRegion t side) ≤ rows := by
    unfold roiH
    constructor
    · exact le_max_left 1 _
    · have hle : max 1 (min (cppTruncToInt ((getROIRegion t side).height * (rows : Rat)))
          (rows - roiY rows (getROIRegion t side)))
          ≤ rows - roiY rows (getROIRegion t side) := by
        apply max_le
        · omega
        · exact min_le_right _ _
      omega
  exact ⟨hx.1, hx.2, hy.1, hy.2, hw.1, hh.1, hw.2, hh.2⟩

theorem extractROI_rect_inside_witness :
    0 ≤ roiX 856 (getROIRegion ROIType.TCKN false)
    ∧ roiX 856 (getROIRegion ROIType.TCKN false) ≤ 856 - 1
    ∧ 0 ≤ roiY 540 (getROIRegion ROIType.TCKN false)
    ∧ roiY 540 (getROIRegion ROIType.TCKN false) ≤ 540 - 1
    ∧ 1 ≤ roiW 856 (getROIRegion ROIType.TCKN false)
    ∧ 1 ≤ roiH 540 (getROIRegion ROIType.TCKN false)
    ∧ roiX 856 (getROIRegion ROIType.TCKN false)
        + roiW 856 (getROIRegion ROIType.TCKN false) ≤ 856
    ∧ roiY 540 (getROIRegion ROIType.TCKN false)
        + roiH 540 (getROIRegion ROIType.TCKN false) ≤ 540 :=
  extractROI_rect_inside ROIType.TCKN false 540 856 (by norm_num) (by norm_num)

/-- `TARGET_WIDTH`/`TARGET_HEIGHT` (VisionProcessor.h:54-55). -/
def TARGET_WIDTH : Nat := 856

/-- ID-1 canonical height. -/
def TARGET_HEIGHT : Nat := 540

/-- Insertion of a point into a y-sorted list (model of the
`std::sort`-by-y in `orderCorners`, VisionProcessor.cpp:348-350). -/
def insertByY (p : Int × Int) : List (Int × Int) → List (Int × Int)
  | [] => [p]
  | q :: rest => if p.2 < q.2 then p :: q :: rest else q :: insertByY p rest

/-- Sort by y coordinate (ascending). -/
def sortByY : List (Int × Int) → List (Int × Int)
  | [] => []
  | p :: rest => insertByY p (sortByY rest)

/-- `VisionProcessor::orderCorners` (VisionProcessor.cpp:337-360): sort
the four points by y, order the top pair and the bottom pair by x, and
return TL, TR, BR, BL.  Integer `cv::Point` coordinates convert to
`float` exactly, so the model keeps them as integers. -/
def orderCorners (corners : List (Int × Int)) : List (Int × Int) :=
  if corners.length ≠ 4 then []
  else
    match sortByY corners with
    | [p0, p1, p2, p3] =>
        let t := if p0.1 > p1.1 then (p1, p0) else (p0, p1)
        let b := if p2.1 > p3.1 then (p3, p2) else (p2, p3)
        [t.1, t.2, b.2, b.1]
    | _ => []

/-- `VisionProcessor::warpToID1` (VisionProcessor.cpp:187-239): empty
result when the corner count is not 4 or the frame is empty; otherwise
order the corners, compare the longest warped height against the longest
warped width (modelled by squared edge lengths, since `cv::norm` is
monotone in them), swap the ID-1 target dimensions when portrait, and
resample into the target rectangle. -/
def warpToID1 (src : MatDesc) (corners : List (Int × Int)) : MatDesc :=
  if corners.length ≠ 4 ∨ src.isEmpty = true then emptyMat
  else
    match orderCorners corners with
    | [tl, tr, br, bl] =>
        let wTopSq := (tr.1 - tl.1) ^ 2 + (tr.2 - tl.2) ^ 2
        let wBotSq := (br.1 - bl.1) ^ 2 + (br.2 - bl.2) ^ 2
        let hLeftSq := (bl.1 - tl.1) ^ 2 + (bl.2 - tl.2) ^ 2
        let hRightSq := (br.1 - tr.1) ^ 2 + (br.2 - tr.2) ^ 2
        let portrait := max hLeftSq hRightSq > max wTopSq wBotSq
        let dstW := if portrait then TARGET_HEIGHT else TARGET_WIDTH
        let dstH := if portrait then TARGET_WIDTH else TARGET_HEIGHT
        { rows := dstH, cols := dstW, channels := src.channels,
          ops := src.ops ++ [ImgOp.warpPerspective dstW dstH] }
    | _ => emptyMat

/-- C9: `warpToID1` returns the empty image whenever the corner list does
not contain exactly 4 points or the input frame is empty, and it never
raises an error (it is a total function). -/
theorem warpToID1_empty_on_bad (src : MatDesc) (corners : List (Int × Int))
    (h : corners.length ≠ 4 ∨ src.isEmpty = true) :
    warpToID1 src corners = emptyMat := by
  unfold warpToID1
  rw [if_pos h]

theorem warpToID1_empty_on_bad_witness :
    warpToID1 ⟨540, 856, 3, []⟩ [] = emptyMat
    ∧ warpToID1 emptyMat [(0, 0), (855, 0), (855, 539), (0, 539)] = emptyMat :=
  ⟨warpToID1_empty_on_bad ⟨540, 856, 3, []⟩ [] (Or.inl (by decide)),
   warpToID1_empty_on_bad emptyMat [(0, 0), (855, 0), (855, 539), (0, 539)]
     (Or.inr (by decide))⟩

end IdVerify
